import Mathlib

/-!
Verification development for the `Web3Tools` facade (`src/index.js`), a thin
wrapper around a blockchain RPC client.  The facade holds one connection
handle (created from a provider URL at construction) and exposes five
operations: `getBlockNumber`, `getBalance`, `callContractMethod`,
`deployContract`, `sendTransaction`.

The embedding models:
  * the wei/ether conversion utilities used by the facade
    (`web3.utils.fromWei(·, 'ether')` and `web3.utils.toWei(·, 'ether')`,
    which follow the ethjs-unit algorithm: base-10 strings, the fraction
    left-padded to 18 digits and trailing zeros stripped);
    amounts are modelled as non-negative, matching balances and ether
    quantities handled by this facade;
  * the underlying client as an oracle (`EthBackend`) of response
    functions, so that each facade operation is a pure function of the
    facade object, the oracle, and its inputs, returning the facade object
    after the call, the result (`Except` for JS throw), the `console.error`
    log, and the trace of calls issued to the underlying client.
-/

/-- One ether in wei: `10^18`. -/
def WEI_PER_ETHER : Nat := 1000000000000000000

/-- The decimal digit character for `d` (meaningful for `d < 10`). -/
def decDigitChar (d : Nat) : Char := Char.ofNat (48 + d)

/-- Base-10 printing of a natural number, most significant digit first,
fuel-structured (`fuel` bounds the number of digits; `natDecimalDigits`
supplies enough). Mirrors `BN.toString(10)`. -/
def natDigitsAux : Nat → Nat → List Char → List Char
  | 0, _, acc => acc
  | fuel + 1, n, acc =>
    if n < 10 then decDigitChar n :: acc
    else natDigitsAux fuel (n / 10) (decDigitChar (n % 10) :: acc)

/-- The base-10 digit string of `n`, e.g. `25 ↦ ['2', '5']`, `0 ↦ ['0']`. -/
def natDecimalDigits (n : Nat) : List Char := natDigitsAux (n + 1) n []

/-- The base-10 string of `n` (`BN.toString(10)`). -/
def natStr (n : Nat) : String := String.mk (natDecimalDigits n)

/-- The numeric value of a decimal digit character, `none` on a non-digit. -/
def charToDigit (c : Char) : Option Nat :=
  if 48 ≤ c.toNat ∧ c.toNat ≤ 57 then some (c.toNat - 48) else none

/-- Parse a base-10 digit string with accumulator; fails on any non-digit
character (a `BN` constructor throws there). The empty string parses as `0`
(ethjs-unit substitutes `'0'` for empty components before parsing). -/
def digitsValAux : List Char → Nat → Option Nat
  | [], acc => some acc
  | c :: cs, acc =>
    match charToDigit c with
    | some d => digitsValAux cs (acc * 10 + d)
    | none => none

/-- The numeric value of a base-10 digit string. -/
def digitsVal (l : List Char) : Option Nat := digitsValAux l 0

/-- Split a character list at the first `'.'`: everything before it, and
(`some`) everything after it when a dot occurs. Mirrors the
`ether.split('.')` decomposition into whole and fractional components. -/
def splitOnDot : List Char → List Char × Option (List Char)
  | [] => ([], none)
  | c :: cs =>
    if c = '.' then ([], some cs)
    else
      let r := splitOnDot cs
      (c :: r.1, r.2)

/-- Left-pad a character list with `c` to length `n` (the
`while (fraction.length < baseLength) fraction = '0' + fraction` loop). -/
def leftPad (n : Nat) (c : Char) (l : List Char) : List Char :=
  List.replicate (n - l.length) c ++ l

/-- Strip trailing `'0'` characters, collapsing an all-zero string to
`['0']` — the `fraction.match(/^([0-9]*[1-9]|0)(0*)$/)[1]` step of
`fromWei`. -/
def stripTrailingZeros (l : List Char) : List Char :=
  let s := (l.reverse.dropWhile (fun c => c = '0')).reverse
  if s = [] then ['0'] else s

/-- `web3.utils.fromWei(wei, 'ether')`: divide by `10^18` and render as a
decimal string; the fractional part is the remainder left-padded to 18
digits with its trailing zeros stripped, and is omitted (with the dot)
when it is zero. -/
def fromWei (wei : Nat) : String :=
  let whole := natDecimalDigits (wei / WEI_PER_ETHER)
  let fraction :=
    stripTrailingZeros (leftPad 18 '0' (natDecimalDigits (wei % WEI_PER_ETHER)))
  if fraction = ['0'] then String.mk whole
  else String.mk (whole ++ '.' :: fraction)

/-- `web3.utils.toWei(amount, 'ether')`, numeric value: split on the dot,
reject a fractional part longer than 18 digits, and compute
`whole * 10^18 + fraction * 10^(18 - fraction.length)`.  `none` models the
throw on a malformed amount. -/
def toWeiNat (amount : String) : Option Nat :=
  match splitOnDot amount.data with
  | (wholePart, none) =>
    match digitsVal wholePart with
    | some w => some (w * WEI_PER_ETHER)
    | none => none
  | (wholePart, some fracPart) =>
    let fracPart := if fracPart = [] then ['0'] else fracPart
    if fracPart.length > 18 then none
    else
      match digitsVal wholePart, digitsVal fracPart with
      | some w, some f => some (w * WEI_PER_ETHER + f * 10 ^ (18 - fracPart.length))
      | _, _ => none

/-- `web3.utils.toWei(amount, 'ether')` as the source uses it: the wei
amount rendered back as a base-10 string. -/
def toWei (amount : String) : Option String := (toWeiNat amount).map natStr

/-- A JS value appearing in request objects and parameter lists. -/
inductive JsValue where
  | str (s : String)
  | num (n : Nat)
deriving DecidableEq

/-- A JS object literal: an ordered list of named fields. -/
abbrev JsObject := List (String × JsValue)

/-- The failures of this domain: the spec's error taxonomy, plus the JS
`TypeError` thrown by calling a member of `undefined` and the throw of a
failed unit conversion. -/
inductive JsError where
  | connectionError
  | invalidAddressError
  | invalidMethodError
  | outOfGasError
  | transactionRevertedError
  | insufficientFundsError
  | typeError (msg : String)
  | conversionError (amount : String)
deriving DecidableEq

/-- The connection handle: `new Web3(providerUrl)` — an opaque object
wrapping the provider URL. -/
structure Web3 where
  providerUrl : String
deriving DecidableEq

/-- One entry of an ABI descriptor (only its name and kind matter here;
the facade treats the ABI as an opaque pass-through value). -/
structure AbiEntry where
  name : String
  entryType : String
deriving DecidableEq

/-- A `web3.eth.Contract` instance: `new Contract(abi)` or
`new Contract(abi, address)`. -/
structure Contract where
  abi : List AbiEntry
  address : Option String
deriving DecidableEq

/-- The members a `web3.eth.Contract` instance defines. -/
inductive ContractMember where
  | optionsObj (address : Option String)
  | methodsObj (abi : List AbiEntry)
  | eventsObj
  | deployFn
deriving DecidableEq

/-- JS member access `contract.<name>` on a `web3.eth.Contract` instance:
`undefined` (`none`) unless `<name>` is one of the instance's members. -/
def Contract.getMember (c : Contract) (name : String) : Option ContractMember :=
  if name = "options" then some (.optionsObj c.address)
  else if name = "methods" then some (.methodsObj c.abi)
  else if name = "events" then some .eventsObj
  else if name = "deploy" then some .deployFn
  else none

/-- JS evaluation of `x.call()` where `x` resulted from a member access:
on `undefined` it throws `TypeError: Cannot read properties of undefined
(reading 'call')`; on a member object with no callable `call` member it
throws `TypeError: ... is not a function`. -/
def jsCallCall : Option ContractMember → Except JsError JsValue
  | none => .error (.typeError "Cannot read properties of undefined (reading 'call')")
  | some _ => .error (.typeError "method.call is not a function")

/-- The receipt `deploy.send(...)` resolves with; the source reads its
`contractAddress`. -/
structure DeployReceipt where
  contractAddress : String
  transactionHash : String
deriving DecidableEq

/-- The result `eth.sendTransaction(...)` resolves with; the source reads
its `transactionHash`. -/
structure SendReceipt where
  transactionHash : String
deriving DecidableEq

/-- One call issued to the underlying chain client, tagged with the
connection handle it was issued on. -/
inductive BackendCall where
  | getBlockNumber (handle : Web3)
  | getBalance (handle : Web3) (address : String)
  | deploySend (handle : Web3) (abi : List AbiEntry) (data : String)
      (arguments : List JsValue) (opts : JsObject)
  | sendTransaction (handle : Web3) (tx : JsObject)
deriving DecidableEq

/-- The connection handle a backend call was issued on. -/
def BackendCall.handle : BackendCall → Web3
  | .getBlockNumber h => h
  | .getBalance h _ => h
  | .deploySend h _ _ _ _ => h
  | .sendTransaction h _ => h

/-- The underlying chain client, as an oracle of response functions: each
takes the connection handle the request is issued on and resolves
(`Except.ok`) or rejects (`Except.error`). -/
structure EthBackend where
  getBlockNumber : Web3 → Except JsError Nat
  getBalance : Web3 → String → Except JsError Nat
  deploySend : Web3 → List AbiEntry → String → List JsValue → JsObject →
      Except JsError DeployReceipt
  sendTransaction : Web3 → JsObject → Except JsError SendReceipt

/-- What one facade operation produced: its result (`Except.error` for a
rejected promise), the `console.error` log written on the way (each entry
is the message prefix together with the logged error object), and the
trace of calls issued to the underlying client. -/
structure OpResult (α : Type) where
  value : Except JsError α
  log : List (String × JsError)
  calls : List BackendCall

/-- The facade: holds the single connection handle `this.web3`. -/
structure Web3Tools where
  web3 : Web3
deriving DecidableEq

/-- `new Web3Tools(providerUrl)`: `this.web3 = new Web3(providerUrl)`. -/
def Web3Tools.make (providerUrl : String) : Web3Tools :=
  { web3 := { providerUrl := providerUrl } }

/-- `getBlockNumber()`: awaits `this.web3.eth.getBlockNumber()` and returns
the block number; on failure logs `'Error fetching block number:'` with the
error and rethrows it. -/
def Web3Tools.getBlockNumber (tools : Web3Tools) (eth : EthBackend) :
    Web3Tools × OpResult Nat :=
  match eth.getBlockNumber tools.web3 with
  | .ok blockNumber =>
    (tools, ⟨.ok blockNumber, [], [.getBlockNumber tools.web3]⟩)
  | .error e =>
    (tools, ⟨.error e, [("Error fetching block number:", e)],
      [.getBlockNumber tools.web3]⟩)

/-- `getBalance(address)`: awaits `this.web3.eth.getBalance(address)` and
returns `this.web3.utils.fromWei(balance, 'ether')`; on failure logs
`'Error fetching balance:'` with the error and rethrows it. -/
def Web3Tools.getBalance (tools : Web3Tools) (eth : EthBackend)
    (address : String) : Web3Tools × OpResult String :=
  match eth.getBalance tools.web3 address with
  | .ok balance =>
    (tools, ⟨.ok (fromWei balance), [], [.getBalance tools.web3 address]⟩)
  | .error e =>
    (tools, ⟨.error e, [("Error fetching balance:", e)],
      [.getBalance tools.web3 address]⟩)

/-- `callContractMethod(contractAddress, abi, methodName, methodParams)`:
builds `new this.web3.eth.Contract(abi, contractAddress)`, then evaluates
`const method = contract.methodsmethodName` — a member access with the
literal name `"methodsmethodName"`, which is not a member the Contract
instance defines — and then `await method.call()`; the throw is caught,
logged with `'Error calling contract method:'` and rethrown.  `methodName`
and `methodParams` are never read, and no call reaches the client. -/
def Web3Tools.callContractMethod (tools : Web3Tools) (eth : EthBackend)
    (contractAddress : String) (abi : List AbiEntry) (methodName : String)
    (methodParams : List JsValue) : Web3Tools × OpResult JsValue :=
  let contract : Contract := { abi := abi, address := some contractAddress }
  let method := contract.getMember "methodsmethodName"
  match jsCallCall method with
  | .ok result => (tools, ⟨.ok result, [], []⟩)
  | .error e =>
    (tools, ⟨.error e, [("Error calling contract method:", e)], []⟩)

/-- `deployContract(abi, bytecode, fromAddress, constructorParams)`: builds
`new this.web3.eth.Contract(abi)`, then
`contract.deploy({data: bytecode, arguments: constructorParams})` and
`await deploy.send({from: fromAddress, gas: 2000000})`, returning the
receipt's `contractAddress`; on failure logs `'Error deploying contract:'`
with the error and rethrows it. -/
def Web3Tools.deployContract (tools : Web3Tools) (eth : EthBackend)
    (abi : List AbiEntry) (bytecode : String) (fromAddress : String)
    (constructorParams : List JsValue) : Web3Tools × OpResult String :=
  let sendOpts : JsObject := [("from", .str fromAddress), ("gas", .num 2000000)]
  match eth.deploySend tools.web3 abi bytecode constructorParams sendOpts with
  | .ok transaction =>
    (tools, ⟨.ok transaction.contractAddress, [],
      [.deploySend tools.web3 abi bytecode constructorParams sendOpts]⟩)
  | .error e =>
    (tools, ⟨.error e, [("Error deploying contract:", e)],
      [.deploySend tools.web3 abi bytecode constructorParams sendOpts]⟩)

/-- `sendTransaction(fromAddress, toAddress, amount)`: computes
`this.web3.utils.toWei(amount, 'ether')` (whose throw on a malformed
amount is caught by the same handler), then awaits
`this.web3.eth.sendTransaction({from, to, value})` and returns the
receipt's `transactionHash`; on failure logs
`'Error sending transaction:'` with the error and rethrows it. -/
def Web3Tools.sendTransaction (tools : Web3Tools) (eth : EthBackend)
    (fromAddress : String) (toAddress : String) (amount : String) :
    Web3Tools × OpResult String :=
  match toWei amount with
  | none =>
    let e := JsError.conversionError amount
    (tools, ⟨.error e, [("Error sending transaction:", e)], []⟩)
  | some weiValue =>
    let tx : JsObject :=
      [("from", .str fromAddress), ("to", .str toAddress),
       ("value", .str weiValue)]
    match eth.sendTransaction tools.web3 tx with
    | .ok receipt =>
      (tools, ⟨.ok receipt.transactionHash, [], [.sendTransaction tools.web3 tx]⟩)
    | .error e =>
      (tools, ⟨.error e, [("Error sending transaction:", e)],
        [.sendTransaction tools.web3 tx]⟩)

/-- A sample client for concrete runs: chain head at block 100, every
address holding 2.5 ether of raw balance, deployments and transfers
accepted. -/
def demoBackend : EthBackend where
  getBlockNumber _ := .ok 100
  getBalance _ _ := .ok 2500000000000000000
  deploySend _ _ _ _ _ := .ok ⟨"0xDeployedAddr", "0xDeployHash"⟩
  sendTransaction _ _ := .ok ⟨"0xTxHash"⟩

/-- A client whose every request rejects with the error `e` (e.g. a
network failure). -/
def failingBackend (e : JsError) : EthBackend where
  getBlockNumber _ := .error e
  getBalance _ _ := .error e
  deploySend _ _ _ _ _ := .error e
  sendTransaction _ _ := .error e

/-! ## Digit-string lemmas -/

theorem charToDigit_decDigitChar {d : Nat} (h : d < 10) :
    charToDigit (decDigitChar d) = some d := by
  interval_cases d <;> decide

theorem decDigitChar_ne_dot {d : Nat} (h : d < 10) : decDigitChar d ≠ '.' := by
  interval_cases d <;> decide

theorem digitsValAux_append (l1 l2 : List Char) (acc : Nat) :
    digitsValAux (l1 ++ l2) acc =
      (digitsValAux l1 acc).bind (fun v => digitsValAux l2 v) := by
  induction l1 generalizing acc with
  | nil => simp [digitsValAux]
  | cons c cs ih =>
    simp only [List.cons_append, digitsValAux]
    cases charToDigit c with
    | some d => simpa using ih (acc * 10 + d)
    | none => rfl

theorem digitsValAux_replicate_zero (k acc : Nat) :
    digitsValAux (List.replicate k '0') acc = some (acc * 10 ^ k) := by
  induction k generalizing acc with
  | zero => simp [digitsValAux]
  | succ k ih =>
    have h0 : charToDigit '0' = some 0 := by decide
    simp only [List.replicate_succ, digitsValAux, h0]
    rw [ih]
    congr 1
    ring

theorem natDigitsAux_spec (fuel : Nat) : ∀ n : Nat, n < 10 ^ (fuel + 1) →
    ∀ rest : List Char, ∃ ds : List Char,
      natDigitsAux (fuel + 1) n rest = ds ++ rest ∧
      ds ≠ [] ∧
      (∀ c ∈ ds, c ≠ '.') ∧
      (∀ acc, digitsValAux ds acc = some (acc * 10 ^ ds.length + n)) ∧
      (∀ k, 0 < k → n < 10 ^ k → ds.length ≤ k) := by
  induction fuel with
  | zero =>
    intro n hn rest
    have h10 : n < 10 := by simpa using hn
    refine ⟨[decDigitChar n], ?_, by simp, ?_, ?_, ?_⟩
    · simp [natDigitsAux, h10]
    · intro c hc
      rw [List.mem_singleton] at hc
      exact hc ▸ decDigitChar_ne_dot h10
    · intro acc
      simp [digitsValAux, charToDigit_decDigitChar h10]
    · intro k hk _
      simpa using hk
  | succ fuel ih =>
    intro n hn rest
    by_cases h10 : n < 10
    · refine ⟨[decDigitChar n], ?_, by simp, ?_, ?_, ?_⟩
      · simp [natDigitsAux, h10]
      · intro c hc
        rw [List.mem_singleton] at hc
        exact hc ▸ decDigitChar_ne_dot h10
      · intro acc
        simp [digitsValAux, charToDigit_decDigitChar h10]
      · intro k hk _
        simpa using hk
    · have hdiv : n / 10 < 10 ^ (fuel + 1) := by
        rw [Nat.div_lt_iff_lt_mul (by norm_num)]
        calc n < 10 ^ (fuel + 1 + 1) := hn
          _ = 10 ^ (fuel + 1) * 10 := by ring
      obtain ⟨ds', h1, h2, h3, h4, h5⟩ :=
        ih (n / 10) hdiv (decDigitChar (n % 10) :: rest)
      have hmod : n % 10 < 10 := Nat.mod_lt _ (by norm_num)
      refine ⟨ds' ++ [decDigitChar (n % 10)], ?_, by simp, ?_, ?_, ?_⟩
      · have : natDigitsAux (fuel + 1 + 1) n rest =
            natDigitsAux (fuel + 1) (n / 10) (decDigitChar (n % 10) :: rest) := by
          simp [natDigitsAux, h10]
        rw [this, h1]
        simp
      · intro c hc
        rcases List.mem_append.mp hc with hc | hc
        · exact h3 c hc
        · rw [List.mem_singleton] at hc
          exact hc ▸ decDigitChar_ne_dot hmod
      · intro acc
        rw [digitsValAux_append, h4 acc]
        simp only [digitsValAux, charToDigit_decDigitChar hmod, Option.some_bind]
        congr 1
        have hn10 : n / 10 * 10 + n % 10 = n := by omega
        have : (ds' ++ [decDigitChar (n % 10)]).length = ds'.length + 1 := by simp
        rw [this, pow_succ]
        calc (acc * 10 ^ ds'.length + n / 10) * 10 + n % 10
            = acc * (10 ^ ds'.length * 10) + (n / 10 * 10 + n % 10) := by ring
          _ = acc * (10 ^ ds'.length * 10) + n := by rw [hn10]
      · intro k hk hnk
        match k, hk with
        | 1, _ =>
          exact absurd (by simpa using hnk) h10
        | k' + 2, _ =>
          have : n / 10 < 10 ^ (k' + 1) := by
            rw [Nat.div_lt_iff_lt_mul (by norm_num)]
            calc n < 10 ^ (k' + 2) := hnk
              _ = 10 ^ (k' + 1) * 10 := by ring
          have := h5 (k' + 1) (Nat.succ_pos _) this
          simp only [List.length_append, List.length_singleton]
          omega

theorem natDecimalDigits_spec (n : Nat) :
    (∀ acc, digitsValAux (natDecimalDigits n) acc =
        some (acc * 10 ^ (natDecimalDigits n).length + n)) ∧
    natDecimalDigits n ≠ [] ∧
    (∀ c ∈ natDecimalDigits n, c ≠ '.') ∧
    (∀ k, 0 < k → n < 10 ^ k → (natDecimalDigits n).length ≤ k) := by
  have hn : n < 10 ^ (n + 1) :=
    lt_of_lt_of_le (Nat.lt_pow_self (by norm_num) n)
      (Nat.pow_le_pow_right (by norm_num) (Nat.le_succ n))
  obtain ⟨ds, h1, h2, h3, h4, h5⟩ := natDigitsAux_spec n n hn []
  have hds : natDecimalDigits n = ds := by
    rw [natDecimalDigits, h1, List.append_nil]
  rw [hds]
  exact ⟨h4, h2, h3, h5⟩

theorem digitsVal_natDecimalDigits (n : Nat) :
    digitsVal (natDecimalDigits n) = some n := by
  have h := (natDecimalDigits_spec n).1 0
  simpa [digitsVal] using h

theorem splitOnDot_no_dot (l : List Char) (h : '.' ∉ l) :
    splitOnDot l = (l, none) := by
  induction l with
  | nil => rfl
  | cons c cs ih =>
    have hc : ¬(c = '.') := fun hc => h (hc ▸ List.mem_cons_self c cs)
    have hcs : '.' ∉ cs := fun hm => h (List.mem_cons_of_mem c hm)
    simp [splitOnDot, hc, ih hcs]

theorem splitOnDot_append_dot (a b : List Char) (h : '.' ∉ a) :
    splitOnDot (a ++ '.' :: b) = (a, some b) := by
  induction a with
  | nil => simp [splitOnDot]
  | cons c cs ih =>
    have hc : ¬(c = '.') := fun hc => h (hc ▸ List.mem_cons_self c cs)
    have hcs : '.' ∉ cs := fun hm => h (List.mem_cons_of_mem c hm)
    simp [splitOnDot, hc, ih hcs]

theorem stripTrailingZeros_decomp (l : List Char) :
    l = (l.reverse.dropWhile (fun c => c = '0')).reverse ++
        List.replicate (l.reverse.takeWhile (fun c => c = '0')).length '0' ∧
    (l.reverse.dropWhile (fun c => c = '0')).reverse.length +
        (l.reverse.takeWhile (fun c => c = '0')).length = l.length := by
  constructor
  · have htake : l.reverse.takeWhile (fun c => c = '0') =
        List.replicate (l.reverse.takeWhile (fun c => c = '0')).length '0' := by
      rw [List.eq_replicate_length]
      intro b hb
      simpa using List.mem_takeWhile_imp hb
    conv_lhs => rw [← List.reverse_reverse l,
      ← List.takeWhile_append_dropWhile (fun c => c = '0') l.reverse]
    rw [List.reverse_append, htake, List.reverse_replicate, List.length_replicate]
  · have := congrArg List.length
      (List.takeWhile_append_dropWhile (fun c => c = '0') l.reverse)
    simp only [List.length_append, List.length_reverse] at this ⊢
    omega

/-- The unit-conversion round trip of the underlying utilities: converting
a wei amount to a whole-unit decimal ether string and back yields the
original amount, so the decimal string `fromWei w` denotes exactly
`w / 10^18`. -/
theorem toWeiNat_fromWei (w : Nat) : toWeiNat (fromWei w) = some w := by
  have hWpos : (0 : Nat) < WEI_PER_ETHER := by norm_num [WEI_PER_ETHER]
  have hWpow : WEI_PER_ETHER = 10 ^ 18 := by norm_num [WEI_PER_ETHER]
  have hr18 : w % WEI_PER_ETHER < 10 ^ 18 := by
    rw [← hWpow]
    exact Nat.mod_lt w hWpos
  have hqrw : w / WEI_PER_ETHER * WEI_PER_ETHER + w % WEI_PER_ETHER = w := by
    rw [Nat.mul_comm]
    exact Nat.div_add_mod w WEI_PER_ETHER
  obtain ⟨-, -, hqdot, -⟩ := natDecimalDigits_spec (w / WEI_PER_ETHER)
  have hdotq : '.' ∉ natDecimalDigits (w / WEI_PER_ETHER) :=
    fun hm => hqdot _ hm rfl
  by_cases h0 : w % WEI_PER_ETHER = 0
  · have hfrac : stripTrailingZeros
        (leftPad 18 '0' (natDecimalDigits (w % WEI_PER_ETHER))) = ['0'] := by
      rw [h0]
      decide
    have hfw : fromWei w = String.mk (natDecimalDigits (w / WEI_PER_ETHER)) := by
      rw [fromWei]
      simp only [hfrac, if_pos]
    have hsplit : splitOnDot
        (String.mk (natDecimalDigits (w / WEI_PER_ETHER))).data =
        (natDecimalDigits (w / WEI_PER_ETHER), none) := by
      show splitOnDot (natDecimalDigits (w / WEI_PER_ETHER)) = _
      exact splitOnDot_no_dot _ hdotq
    rw [hfw, toWeiNat, hsplit]
    simp only [digitsVal_natDecimalDigits]
    rw [h0, Nat.add_zero] at hqrw
    rw [hqrw]
  · -- fractional case: the remainder is printed as an 18-digit block with
    -- its trailing zeros stripped
    obtain ⟨hdecomp, hlen⟩ :=
      stripTrailingZeros_decomp (leftPad 18 '0' (natDecimalDigits (w % WEI_PER_ETHER)))
    set s := ((leftPad 18 '0' (natDecimalDigits (w % WEI_PER_ETHER))).reverse.dropWhile
        (fun c => c = '0')).reverse with hsdef
    have hdslen : (natDecimalDigits (w % WEI_PER_ETHER)).length ≤ 18 :=
      (natDecimalDigits_spec (w % WEI_PER_ETHER)).2.2.2 18 (by norm_num) hr18
    have hLlen : (leftPad 18 '0' (natDecimalDigits (w % WEI_PER_ETHER))).length = 18 := by
      simp only [leftPad, List.length_append, List.length_replicate]
      omega
    have hLval : digitsVal (leftPad 18 '0' (natDecimalDigits (w % WEI_PER_ETHER))) =
        some (w % WEI_PER_ETHER) := by
      rw [leftPad, digitsVal, digitsValAux_append, digitsValAux_replicate_zero]
      simp only [Nat.zero_mul]
      exact digitsVal_natDecimalDigits (w % WEI_PER_ETHER)
    have hsval : ∃ v, digitsVal s = some v ∧
        v * 10 ^ ((leftPad 18 '0' (natDecimalDigits (w % WEI_PER_ETHER))).reverse.takeWhile
          (fun c => c = '0')).length = w % WEI_PER_ETHER := by
      rw [hdecomp, digitsVal, digitsValAux_append] at hLval
      cases hsv : digitsValAux s 0 with
      | none =>
        rw [hsv] at hLval
        simp at hLval
      | some v =>
        rw [hsv] at hLval
        simp only [Option.some_bind, digitsValAux_replicate_zero] at hLval
        exact ⟨v, hsv, Option.some.inj hLval⟩
    obtain ⟨v, hv, hvr⟩ := hsval
    have hsne : s ≠ [] := by
      intro hnil
      rw [hnil] at hv
      have : v = 0 := by
        have h00 : digitsVal ([] : List Char) = some 0 := by decide
        rw [h00] at hv
        exact (Option.some.inj hv).symm
      rw [this, Nat.zero_mul] at hvr
      exact h0 hvr.symm
    have hsne0 : s ≠ ['0'] := by
      intro hone
      rw [hone] at hv
      have : v = 0 := by
        have h00 : digitsVal ['0'] = some 0 := by decide
        rw [h00] at hv
        exact (Option.some.inj hv).symm
      rw [this, Nat.zero_mul] at hvr
      exact h0 hvr.symm
    have hstrip : stripTrailingZeros
        (leftPad 18 '0' (natDecimalDigits (w % WEI_PER_ETHER))) = s := by
      rw [stripTrailingZeros]
      simp only [← hsdef]
      rw [if_neg hsne]
    have hfw : fromWei w =
        String.mk (natDecimalDigits (w / WEI_PER_ETHER) ++ '.' :: s) := by
      rw [fromWei]
      simp only [hstrip]
      rw [if_neg hsne0]
    have hsplit : splitOnDot
        (String.mk (natDecimalDigits (w / WEI_PER_ETHER) ++ '.' :: s)).data =
        (natDecimalDigits (w / WEI_PER_ETHER), some s) := by
      show splitOnDot (natDecimalDigits (w / WEI_PER_ETHER) ++ '.' :: s) = _
      exact splitOnDot_append_dot _ _ hdotq
    rw [hfw, toWeiNat, hsplit]
    simp only [if_neg hsne]
    have hslen : ¬(s.length > 18) := by omega
    rw [if_neg hslen]
    simp only [digitsVal_natDecimalDigits, hv]
    have h18k : 18 - s.length =
        ((leftPad 18 '0' (natDecimalDigits (w % WEI_PER_ETHER))).reverse.takeWhile
          (fun c => c = '0')).length := by
      omega
    rw [h18k, hvr, hqrw]

/-! ## Claim theorems -/

/-- Claim C6: `getBlockNumber` takes no further inputs and returns the
chain head block number reported by the underlying client unchanged; in
particular a head at block 100 yields 100. -/
theorem getBlockNumber_passthrough (tools : Web3Tools) (eth : EthBackend)
    (n : Nat) (h : eth.getBlockNumber tools.web3 = .ok n) :
    (tools.getBlockNumber eth).2.value = .ok n := by
  simp [Web3Tools.getBlockNumber, h]

/-- Witness for C6: on a client with chain head 100, `getBlockNumber`
returns 100. -/
theorem getBlockNumber_passthrough_witness :
    demoBackend.getBlockNumber (Web3Tools.make "http://node").web3 = .ok 100 ∧
    ((Web3Tools.make "http://node").getBlockNumber demoBackend).2.value = .ok 100 :=
  ⟨rfl, getBlockNumber_passthrough (Web3Tools.make "http://node") demoBackend 100 rfl⟩

/-- Claim C1: for every address whose raw balance the client reports as
`raw`, `getBalance` returns the decimal ether string `fromWei raw`; that
string denotes exactly `raw / 10^18` (converting it back to the smallest
unit recovers `raw`), and a raw balance of 2500000000000000000 renders as
"2.5". -/
theorem getBalance_unit_conversion (tools : Web3Tools) (eth : EthBackend)
    (address : String) (raw : Nat)
    (h : eth.getBalance tools.web3 address = .ok raw) :
    (tools.getBalance eth address).2.value = .ok (fromWei raw) ∧
    toWeiNat (fromWei raw) = some raw ∧
    fromWei 2500000000000000000 = "2.5" := by
  refine ⟨?_, toWeiNat_fromWei raw, by decide⟩
  simp [Web3Tools.getBalance, h]

/-- Witness for C1: with raw balance 2500000000000000000, `getBalance`
returns "2.5". -/
theorem getBalance_unit_conversion_witness :
    demoBackend.getBalance (Web3Tools.make "http://node").web3 "0xABC" =
      .ok 2500000000000000000 ∧
    ((Web3Tools.make "http://node").getBalance demoBackend "0xABC").2.value =
      .ok "2.5" := by
  have h := getBalance_unit_conversion (Web3Tools.make "http://node") demoBackend
    "0xABC" 2500000000000000000 rfl
  exact ⟨rfl, by rw [h.1, h.2.2]⟩

/-- Claim C2 counterexample: with an empty ABI — so `"foo"` resolves to no
callable entry — `callContractMethod` does not fail with
`InvalidMethodError`: it throws the property-access `TypeError` instead. -/
theorem callContractMethod_invalidMethodError_counterexample :
    (∀ e ∈ ([] : List AbiEntry), e.name ≠ "foo") ∧
    ((Web3Tools.make "http://node").callContractMethod demoBackend "0xC0" [] "foo"
        []).2.value ≠ Except.error JsError.invalidMethodError := by
  exact ⟨by simp, by simp [Web3Tools.callContractMethod, Contract.getMember, jsCallCall]⟩

/-- Claim C2 (amended): whenever `methodName` does not resolve to an entry
of the supplied ABI, `callContractMethod` fails — not with
`InvalidMethodError` but with the one fixed `TypeError` of the preserved
defect, the same way every time — and it issues no transport call at all,
so it never rejects with `ConnectionError` and never silently returns a
value. -/
theorem callContractMethod_error_behavior (tools : Web3Tools) (eth : EthBackend)
    (contractAddress : String) (abi : List AbiEntry) (methodName : String)
    (methodParams : List JsValue) (h : ∀ e ∈ abi, e.name ≠ methodName) :
    (tools.callContractMethod eth contractAddress abi methodName methodParams).2.value =
      .error (.typeError "Cannot read properties of undefined (reading 'call')") ∧
    (tools.callContractMethod eth contractAddress abi methodName methodParams).2.calls =
      [] :=
  ⟨rfl, rfl⟩

/-- Witness for the amended C2: a method name absent from an empty ABI
produces the fixed TypeError. -/
theorem callContractMethod_error_behavior_witness :
    (∀ e ∈ ([] : List AbiEntry), e.name ≠ "foo") ∧
    ((Web3Tools.make "http://node").callContractMethod demoBackend "0xC0" [] "foo"
        []).2.value =
      .error (.typeError "Cannot read properties of undefined (reading 'call')") :=
  ⟨by simp, (callContractMethod_error_behavior (Web3Tools.make "http://node")
    demoBackend "0xC0" [] "foo" [] (by simp)).1⟩

/-- Claim C3: `callContractMethod` never silently returns a wrong value:
it fails identically — the same `TypeError` — for every facade, client,
contract address, ABI, method name and parameter list (the property
access never dispatches to the named method), and it never produces an
`Except.ok` result. -/
theorem callContractMethod_consistent_failure (tools tools' : Web3Tools)
    (eth eth' : EthBackend) (a a' : String) (abi abi' : List AbiEntry)
    (m m' : String) (ps ps' : List JsValue) :
    (tools.callContractMethod eth a abi m ps).2.value =
      .error (.typeError "Cannot read properties of undefined (reading 'call')") ∧
    (tools.callContractMethod eth a abi m ps).2.value =
      (tools'.callContractMethod eth' a' abi' m' ps').2.value :=
  ⟨rfl, rfl⟩

/-- Claim C9: the outcome of `callContractMethod` is independent of
`methodParams`: any two parameter lists give identical behaviour (result,
log and calls alike), and no call — with or without arguments — is ever
issued to the underlying client. -/
theorem callContractMethod_params_irrelevant (tools : Web3Tools)
    (eth : EthBackend) (contractAddress : String) (abi : List AbiEntry)
    (methodName : String) (p1 p2 : List JsValue) :
    tools.callContractMethod eth contractAddress abi methodName p1 =
      tools.callContractMethod eth contractAddress abi methodName p2 ∧
    (tools.callContractMethod eth contractAddress abi methodName p1).2.calls = [] :=
  ⟨rfl, rfl⟩

/-- Claim C5: `deployContract` submits the deployment with send options
exactly `{from, gas: 2000000}` — the fixed gas limit, for every input and
every client, with no estimation call — and, when the client reports the
mined deployment's receipt, returns the receipt's contract address. -/
theorem deployContract_fixed_gas (tools : Web3Tools) (eth : EthBackend)
    (abi : List AbiEntry) (bytecode fromAddress : String)
    (constructorParams : List JsValue) (receipt : DeployReceipt)
    (h : eth.deploySend tools.web3 abi bytecode constructorParams
      [("from", .str fromAddress), ("gas", .num 2000000)] = .ok receipt) :
    (∀ eth' : EthBackend,
      (tools.deployContract eth' abi bytecode fromAddress constructorParams).2.calls =
        [.deploySend tools.web3 abi bytecode constructorParams
          [("from", .str fromAddress), ("gas", .num 2000000)]]) ∧
    (tools.deployContract eth abi bytecode fromAddress constructorParams).2.value =
      .ok receipt.contractAddress := by
  constructor
  · intro eth'
    cases h' : eth'.deploySend tools.web3 abi bytecode constructorParams
        [("from", .str fromAddress), ("gas", .num 2000000)] <;>
      simp [Web3Tools.deployContract, h']
  · simp [Web3Tools.deployContract, h]

/-- Witness for C5: a concrete deployment goes out with gas 2000000 and
returns the deployed address reported by the client. -/
theorem deployContract_fixed_gas_witness :
    demoBackend.deploySend (Web3Tools.make "http://node").web3 [] "0x6001" []
      [("from", .str "0xA"), ("gas", .num 2000000)] =
        .ok ⟨"0xDeployedAddr", "0xDeployHash"⟩ ∧
    ((Web3Tools.make "http://node").deployContract demoBackend [] "0x6001" "0xA"
      []).2.calls =
        [.deploySend (Web3Tools.make "http://node").web3 [] "0x6001" []
          [("from", .str "0xA"), ("gas", .num 2000000)]] ∧
    ((Web3Tools.make "http://node").deployContract demoBackend [] "0x6001" "0xA"
      []).2.value = .ok "0xDeployedAddr" := by
  have h := deployContract_fixed_gas (Web3Tools.make "http://node") demoBackend
    [] "0x6001" "0xA" [] ⟨"0xDeployedAddr", "0xDeployHash"⟩ rfl
  exact ⟨rfl, h.1 demoBackend, by rw [h.2]⟩

/-- Claim C7: `sendTransaction` converts the decimal ether amount to the
smallest unit before submission — the one transaction it submits carries
`value = toWei(amount)` — and once the client accepts it, returns the
reported transaction hash. -/
theorem sendTransaction_converts_and_returns_hash (tools : Web3Tools)
    (eth : EthBackend) (fromAddress toAddress amount : String) (w : Nat)
    (receipt : SendReceipt) (hw : toWeiNat amount = some w)
    (h : eth.sendTransaction tools.web3
      [("from", .str fromAddress), ("to", .str toAddress),
       ("value", .str (natStr w))] = .ok receipt) :
    (tools.sendTransaction eth fromAddress toAddress amount).2.calls =
      [.sendTransaction tools.web3
        [("from", .str fromAddress), ("to", .str toAddress),
         ("value", .str (natStr w))]] ∧
    (tools.sendTransaction eth fromAddress toAddress amount).2.value =
      .ok receipt.transactionHash := by
  have ht : toWei amount = some (natStr w) := by rw [toWei, hw]; rfl
  constructor <;> simp [Web3Tools.sendTransaction, ht, h]

/-- Witness for C7: sending "2.5" ether submits value
2500000000000000000 wei and returns the client's transaction hash. -/
theorem sendTransaction_converts_witness :
    toWeiNat "2.5" = some 2500000000000000000 ∧
    ((Web3Tools.make "http://node").sendTransaction demoBackend "0xA" "0xB"
      "2.5").2.value = .ok "0xTxHash" := by
  have h := sendTransaction_converts_and_returns_hash (Web3Tools.make "http://node")
    demoBackend "0xA" "0xB" "2.5" 2500000000000000000 ⟨"0xTxHash"⟩ (by decide) rfl
  exact ⟨by decide, by rw [h.2]⟩

/-- Claim C10: the transaction object `sendTransaction` submits has
exactly the three fields from, to, value — the sender and recipient
unchanged and the value the wei conversion of the amount — and carries no
gas, gasPrice, nonce or data field of its own. -/
theorem sendTransaction_tx_shape (tools : Web3Tools) (eth : EthBackend)
    (fromAddress toAddress amount : String) (w : Nat)
    (hw : toWeiNat amount = some w) :
    ∃ tx : JsObject,
      (tools.sendTransaction eth fromAddress toAddress amount).2.calls =
        [.sendTransaction tools.web3 tx] ∧
      tx.map Prod.fst = ["from", "to", "value"] ∧
      tx.lookup "from" = some (.str fromAddress) ∧
      tx.lookup "to" = some (.str toAddress) ∧
      tx.lookup "value" = some (.str (natStr w)) ∧
      tx.lookup "gas" = none ∧
      tx.lookup "gasPrice" = none ∧
      tx.lookup "nonce" = none ∧
      tx.lookup "data" = none := by
  have ht : toWei amount = some (natStr w) := by rw [toWei, hw]; rfl
  refine ⟨[("from", .str fromAddress), ("to", .str toAddress),
    ("value", .str (natStr w))], ?_, by simp, by simp [List.lookup],
    by simp [List.lookup], by simp [List.lookup], by simp [List.lookup],
    by simp [List.lookup], by simp [List.lookup], by simp [List.lookup]⟩
  cases h' : eth.sendTransaction tools.web3
      [("from", JsValue.str fromAddress), ("to", JsValue.str toAddress),
       ("value", JsValue.str (natStr w))] <;>
    simp [Web3Tools.sendTransaction, ht, h']

/-- Witness for C10: sending "2.5" ether submits a three-field transaction
object with no gas, gasPrice, nonce or data. -/
theorem sendTransaction_tx_shape_witness :
    toWeiNat "2.5" = some 2500000000000000000 ∧
    ∃ tx : JsObject,
      ((Web3Tools.make "http://node").sendTransaction demoBackend "0xA" "0xB"
        "2.5").2.calls =
          [.sendTransaction (Web3Tools.make "http://node").web3 tx] ∧
      tx.map Prod.fst = ["from", "to", "value"] ∧
      tx.lookup "from" = some (.str "0xA") ∧
      tx.lookup "to" = some (.str "0xB") ∧
      tx.lookup "value" = some (.str (natStr 2500000000000000000)) ∧
      tx.lookup "gas" = none ∧
      tx.lookup "gasPrice" = none ∧
      tx.lookup "nonce" = none ∧
      tx.lookup "data" = none :=
  ⟨by decide, sendTransaction_tx_shape (Web3Tools.make "http://node") demoBackend
    "0xA" "0xB" "2.5" 2500000000000000000 (by decide)⟩

/-- Claim C4: when the underlying client rejects any operation with any
error `e`, the facade operation logs `e` and re-raises exactly `e` — no
translation, no retry, no fallback, the log being the only side
observation — and returns the facade object unchanged (no partial state
change); `callContractMethod`, whose failure arises before any client
call, likewise logs and re-raises its `TypeError` unchanged. -/
theorem failures_reraised_unchanged (tools : Web3Tools) (eth : EthBackend)
    (e : JsError)
    (address bytecode fromAddress toAddress amount contractAddress methodName :
      String)
    (abi : List AbiEntry) (ps cps : List JsValue) (w : Nat)
    (h1 : ∀ h, eth.getBlockNumber h = .error e)
    (h2 : ∀ h a, eth.getBalance h a = .error e)
    (h3 : ∀ h ab d ar o, eth.deploySend h ab d ar o = .error e)
    (h4 : ∀ h t, eth.sendTransaction h t = .error e)
    (hw : toWeiNat amount = some w) :
    tools.getBlockNumber eth =
      (tools, ⟨.error e, [("Error fetching block number:", e)],
        [.getBlockNumber tools.web3]⟩) ∧
    tools.getBalance eth address =
      (tools, ⟨.error e, [("Error fetching balance:", e)],
        [.getBalance tools.web3 address]⟩) ∧
    tools.deployContract eth abi bytecode fromAddress cps =
      (tools, ⟨.error e, [("Error deploying contract:", e)],
        [.deploySend tools.web3 abi bytecode cps
          [("from", .str fromAddress), ("gas", .num 2000000)]]⟩) ∧
    tools.sendTransaction eth fromAddress toAddress amount =
      (tools, ⟨.error e, [("Error sending transaction:", e)],
        [.sendTransaction tools.web3
          [("from", .str fromAddress), ("to", .str toAddress),
           ("value", .str (natStr w))]]⟩) ∧
    tools.callContractMethod eth contractAddress abi methodName ps =
      (tools,
        ⟨.error (.typeError "Cannot read properties of undefined (reading 'call')"),
         [("Error calling contract method:",
           .typeError "Cannot read properties of undefined (reading 'call')")],
         []⟩) := by
  have ht : toWei amount = some (natStr w) := by rw [toWei, hw]; rfl
  refine ⟨?_, ?_, ?_, ?_, rfl⟩
  · simp [Web3Tools.getBlockNumber, h1]
  · simp [Web3Tools.getBalance, h2]
  · simp [Web3Tools.deployContract, h3]
  · simp [Web3Tools.sendTransaction, ht, h4]

/-- Witness for C4: a client rejecting everything with `ConnectionError`
makes each operation reject with that very `ConnectionError`. -/
theorem failures_reraised_unchanged_witness :
    (failingBackend .connectionError).getBlockNumber
      (Web3Tools.make "http://node").web3 = .error .connectionError ∧
    toWeiNat "1" = some 1000000000000000000 ∧
    ((Web3Tools.make "http://node").getBlockNumber
      (failingBackend .connectionError)).2.value = .error .connectionError ∧
    ((Web3Tools.make "http://node").getBalance
      (failingBackend .connectionError) "0xABC").2.value = .error .connectionError ∧
    ((Web3Tools.make "http://node").deployContract
      (failingBackend .connectionError) [] "0x6001" "0xA" []).2.value =
        .error .connectionError ∧
    ((Web3Tools.make "http://node").sendTransaction
      (failingBackend .connectionError) "0xA" "0xB" "1").2.value =
        .error .connectionError := by
  have h := failures_reraised_unchanged (Web3Tools.make "http://node")
    (failingBackend .connectionError) .connectionError
    "0xABC" "0x6001" "0xA" "0xB" "1" "0xC0" "foo" [] [] [] 1000000000000000000
    (fun _ => rfl) (fun _ _ => rfl) (fun _ _ _ _ _ => rfl) (fun _ _ => rfl)
    (by decide)
  exact ⟨rfl, by decide, by rw [h.1], by rw [h.2.1], by rw [h.2.2.1],
    by rw [h.2.2.2.1]⟩

/-- Claim C8: the connection handle is created exactly once at
construction, wrapping the provider URL; every operation returns the
facade unchanged (the handle is never mutated or replaced), and every
call any operation issues to the underlying client is issued on that same
handle. -/
theorem connection_handle_reused (url : String) (tools : Web3Tools)
    (eth : EthBackend)
    (address bytecode fromAddress toAddress amount contractAddress methodName :
      String)
    (abi : List AbiEntry) (ps cps : List JsValue) :
    (Web3Tools.make url).web3 = { providerUrl := url } ∧
    (tools.getBlockNumber eth).1 = tools ∧
    (tools.getBalance eth address).1 = tools ∧
    (tools.callContractMethod eth contractAddress abi methodName ps).1 = tools ∧
    (tools.deployContract eth abi bytecode fromAddress cps).1 = tools ∧
    (tools.sendTransaction eth fromAddress toAddress amount).1 = tools ∧
    (∀ c ∈ (tools.getBlockNumber eth).2.calls, c.handle = tools.web3) ∧
    (∀ c ∈ (tools.getBalance eth address).2.calls, c.handle = tools.web3) ∧
    (∀ c ∈ (tools.callContractMethod eth contractAddress abi methodName ps).2.calls,
      c.handle = tools.web3) ∧
    (∀ c ∈ (tools.deployContract eth abi bytecode fromAddress cps).2.calls,
      c.handle = tools.web3) ∧
    (∀ c ∈ (tools.sendTransaction eth fromAddress toAddress amount).2.calls,
      c.handle = tools.web3) := by
  refine ⟨rfl, ?_, ?_, rfl, ?_, ?_, ?_, ?_, ?_, ?_, ?_⟩
  · cases h : eth.getBlockNumber tools.web3 <;> simp [Web3Tools.getBlockNumber, h]
  · cases h : eth.getBalance tools.web3 address <;> simp [Web3Tools.getBalance, h]
  · cases h : eth.deploySend tools.web3 abi bytecode cps
        [("from", .str fromAddress), ("gas", .num 2000000)] <;>
      simp [Web3Tools.deployContract, h]
  · cases ht : toWei amount with
    | none => simp [Web3Tools.sendTransaction, ht]
    | some wv =>
      cases h : eth.sendTransaction tools.web3
          [("from", .str fromAddress), ("to", .str toAddress), ("value", .str wv)] <;>
        simp [Web3Tools.sendTransaction, ht, h]
  · cases h : eth.getBlockNumber tools.web3 <;>
      simp [Web3Tools.getBlockNumber, h, BackendCall.handle]
  · cases h : eth.getBalance tools.web3 address <;>
      simp [Web3Tools.getBalance, h, BackendCall.handle]
  · simp [Web3Tools.callContractMethod, Contract.getMember, jsCallCall]
  · cases h : eth.deploySend tools.web3 abi bytecode cps
        [("from", .str fromAddress), ("gas", .num 2000000)] <;>
      simp [Web3Tools.deployContract, h, BackendCall.handle]
  · cases ht : toWei amount with
    | none => simp [Web3Tools.sendTransaction, ht]
    | some wv =>
      cases h : eth.sendTransaction tools.web3
          [("from", .str fromAddress), ("to", .str toAddress), ("value", .str wv)] <;>
        simp [Web3Tools.sendTransaction, ht, h, BackendCall.handle]
